import Mathlib

/-!
Verification of the szrpc RPC library (`szrpc/server.py`, `szrpc/client.py`,
`szrpc/result/__init__.py`) against its specification.

The development shallowly embeds the parts of the code the claims are about:

* the MessagePack payload codec used through `msgpack.dumps` / `msgpack.loads`
  (byte strings are modelled as `List Nat` with every element `< 256`;
  Python strings are represented by their UTF-8 byte sequences);
* the `Request` / `Response` envelope objects and their `parts` / `create` /
  `heartbeat` methods;
* `Service.call_remote` dispatch, with a service modelled as a finite table of
  `remote__` methods, and a method run modelled by the updates it streams plus
  either a returned value or a raised exception's string form;
* the `SignalObject` / `ResultMixin` deferred-result state machine
  (`connect`, `disconnect`, `emit`, `process`, `update`, `done`, `failure`);
* one iteration of the LRU load-balancing broker loop
  (`Server.load_balancing_proxy`), with `time.time()` modelled as an integer
  supplied per iteration.
-/

set_option maxHeartbeats 1000000
set_option maxRecDepth 8000

namespace SzRpc

/-! ### Big-endian byte helpers

`beBytes k n` is the `k`-byte big-endian encoding of `n` (low `8*k` bits),
matching how msgpack serialises multi-byte integers and length fields.
`readBE` reads them back. -/

def beBytes : Nat → Nat → List Nat
  | 0, _ => []
  | k + 1, n => n / 256 ^ k % 256 :: beBytes k n

def readBEAux : Nat → Nat → List Nat → Option (Nat × List Nat)
  | 0, acc, rest => some (acc, rest)
  | _ + 1, _, [] => none
  | k + 1, acc, b :: rest => readBEAux k (acc * 256 + b) rest

def readBE (k : Nat) (bytes : List Nat) : Option (Nat × List Nat) :=
  readBEAux k 0 bytes

def takeN : Nat → List Nat → Option (List Nat × List Nat)
  | 0, rest => some ([], rest)
  | _ + 1, [] => none
  | n + 1, b :: rest => (takeN n rest).map (fun p => (b :: p.1, p.2))

theorem beBytes_length (k n : Nat) : (beBytes k n).length = k := by
  induction k generalizing n with
  | zero => rfl
  | succ k ih => simp [beBytes, ih]

theorem readBEAux_append (k : Nat) : ∀ (acc n : Nat) (rest : List Nat),
    readBEAux k acc (beBytes k n ++ rest) = some (acc * 256 ^ k + n % 256 ^ k, rest) := by
  induction k with
  | zero =>
    intro acc n rest
    simp [beBytes, readBEAux, Nat.mod_one]
  | succ k ih =>
    intro acc n rest
    have hb : beBytes (k + 1) n = n / 256 ^ k % 256 :: beBytes k n := rfl
    have step : readBEAux (k + 1) acc (n / 256 ^ k % 256 :: (beBytes k n ++ rest))
        = readBEAux k (acc * 256 + n / 256 ^ k % 256) (beBytes k n ++ rest) := rfl
    rw [hb, List.cons_append, step, ih]
    have hmm : n % 256 ^ (k + 1) = n % 256 ^ k + 256 ^ k * (n / 256 ^ k % 256) := by
      rw [pow_succ, Nat.mod_mul]
    congr 2
    rw [hmm, pow_succ]
    ring

theorem readBE_append (k n : Nat) (h : n < 256 ^ k) (rest : List Nat) :
    readBE k (beBytes k n ++ rest) = some (n, rest) := by
  unfold readBE
  rw [readBEAux_append, Nat.zero_mul, Nat.zero_add, Nat.mod_eq_of_lt h]

theorem takeN_append (s : List Nat) (rest : List Nat) :
    takeN s.length (s ++ rest) = some (s, rest) := by
  induction s with
  | nil => rfl
  | cons b s ih => simp [takeN, ih]

/-! ### MessagePack value model

`MValue` is the supported binary-encodable value domain used for `kwargs`
and response `content` (spec §4.1): nil, booleans, integers, floats, strings,
byte strings, arrays, maps.  A float is represented by its 64-bit IEEE-754
bit pattern (msgpack transports those 8 bytes verbatim); a string by its
UTF-8 byte sequence. -/

inductive MValue : Type where
  | nil : MValue
  | bool (b : Bool) : MValue
  | int (i : Int) : MValue
  | float (bits : Nat) : MValue
  | str (s : List Nat) : MValue
  | bin (b : List Nat) : MValue
  | arr (vs : List MValue) : MValue
  | map (kvs : List (MValue × MValue)) : MValue

/-- Map keys accepted by the unpacker's `strict_map_key=True` default:
strings and byte strings only (`msgpack.loads` raises on any other key
type, although `msgpack.dumps` encodes it). -/
def isMapKey : MValue → Bool
  | .str _ => true
  | .bin _ => true
  | _ => false

mutual

/-- Well-formedness of a value, the round-trippable domain: integers within
msgpack's encodable range, float bit patterns 64-bit, byte elements
`< 256`, lengths within the 32-bit headers, and map keys restricted to
strings and byte strings (values outside the numeric/length bounds make
`msgpack.dumps` raise; other map key types are encoded by `msgpack.dumps`
but rejected by `msgpack.loads`). -/
def wfV : MValue → Bool
  | .nil => true
  | .bool _ => true
  | .int i => decide (-(2 ^ 63) ≤ i ∧ i < 2 ^ 64)
  | .float bits => decide (bits < 2 ^ 64)
  | .str s => decide (s.length < 2 ^ 32) && s.all (· < 256)
  | .bin b => decide (b.length < 2 ^ 32) && b.all (· < 256)
  | .arr vs => decide (vs.length < 2 ^ 32) && wfList vs
  | .map kvs => decide (kvs.length < 2 ^ 32) && wfPairs kvs

def wfList : List MValue → Bool
  | [] => true
  | v :: vs => wfV v && wfList vs

def wfPairs : List (MValue × MValue) → Bool
  | [] => true
  | (k, v) :: kvs => isMapKey k && wfV k && wfV v && wfPairs kvs

end

mutual

/-- Nesting depth of a value; this is the amount of parser fuel needed. -/
def vdepth : MValue → Nat
  | .arr vs => 1 + ldepth vs
  | .map kvs => 1 + pdepth kvs
  | _ => 1

def ldepth : List MValue → Nat
  | [] => 0
  | v :: vs => max (vdepth v) (ldepth vs)

def pdepth : List (MValue × MValue) → Nat
  | [] => 0
  | (k, v) :: kvs => max (max (vdepth k) (vdepth v)) (pdepth kvs)

end

/-! ### MessagePack encoder (`msgpack.dumps`)

Byte-for-byte model of what `msgpack.dumps` produces with the library's
default settings (`use_bin_type=True`): smallest-width integer formats,
fixstr/str8/str16/str32 for strings, bin8/bin16/bin32 for byte strings,
fixarray/array16/array32 and fixmap/map16/map32 for containers, float64
for floats. -/

/-- Encoding of a Python int, choosing the smallest format, as the msgpack
packer does: positive fixint, uint8/16/32/64 for non-negatives; negative
fixint, int8/16/32/64 for negatives (two's complement via adding `2^w`). -/
def intBytes (i : Int) : List Nat :=
  if 0 ≤ i then
    if i < 0x80 then [i.toNat]
    else if i ≤ 0xff then 0xcc :: beBytes 1 i.toNat
    else if i ≤ 0xffff then 0xcd :: beBytes 2 i.toNat
    else if i ≤ 0xffffffff then 0xce :: beBytes 4 i.toNat
    else 0xcf :: beBytes 8 i.toNat
  else
    if -0x20 ≤ i then [(i + 0x100).toNat]
    else if -0x80 ≤ i then 0xd0 :: beBytes 1 (i + 0x100).toNat
    else if -0x8000 ≤ i then 0xd1 :: beBytes 2 (i + 0x10000).toNat
    else if -0x80000000 ≤ i then 0xd2 :: beBytes 4 (i + 0x100000000).toNat
    else 0xd3 :: beBytes 8 (i + 0x10000000000000000).toNat

/-- String header: fixstr / str8 / str16 / str32. -/
def strHeader (len : Nat) : List Nat :=
  if len < 0x20 then [0xa0 + len]
  else if len ≤ 0xff then 0xd9 :: beBytes 1 len
  else if len ≤ 0xffff then 0xda :: beBytes 2 len
  else 0xdb :: beBytes 4 len

/-- Byte-string header: bin8 / bin16 / bin32. -/
def binHeader (len : Nat) : List Nat :=
  if len ≤ 0xff then 0xc4 :: beBytes 1 len
  else if len ≤ 0xffff then 0xc5 :: beBytes 2 len
  else 0xc6 :: beBytes 4 len

/-- Array header: fixarray / array16 / array32. -/
def arrHeader (len : Nat) : List Nat :=
  if len < 0x10 then [0x90 + len]
  else if len ≤ 0xffff then 0xdc :: beBytes 2 len
  else 0xdd :: beBytes 4 len

/-- Map header: fixmap / map16 / map32. -/
def mapHeader (len : Nat) : List Nat :=
  if len < 0x10 then [0x80 + len]
  else if len ≤ 0xffff then 0xde :: beBytes 2 len
  else 0xdf :: beBytes 4 len

mutual

def msgDumpsV : MValue → List Nat
  | .nil => [0xc0]
  | .bool false => [0xc2]
  | .bool true => [0xc3]
  | .int i => intBytes i
  | .float bits => 0xcb :: beBytes 8 bits
  | .str s => strHeader s.length ++ s
  | .bin b => binHeader b.length ++ b
  | .arr vs => arrHeader vs.length ++ msgDumpsList vs
  | .map kvs => mapHeader kvs.length ++ msgDumpsPairs kvs

def msgDumpsList : List MValue → List Nat
  | [] => []
  | v :: vs => msgDumpsV v ++ msgDumpsList vs

def msgDumpsPairs : List (MValue × MValue) → List Nat
  | [] => []
  | (k, v) :: kvs => msgDumpsV k ++ msgDumpsV v ++ msgDumpsPairs kvs

end

/-- `msgpack.dumps`. -/
def msgDumps (v : MValue) : List Nat := msgDumpsV v

/-! ### MessagePack decoder (`msgpack.loads`)

A fuel-indexed recursive-descent parser over the byte list; fuel decreases
exactly when descending into container elements, so `length + 1` fuel
always suffices.  Format heads that no component of this system ever
sends — ext and fixext (decoded by Python to `ExtType` objects outside the
supported value domain), float32 (decoded to a Python float; the library's
own encoder only ever emits float64), and the reserved head `0xc1` — are
modelled as decode failure; theorems below that assume a successful decode
are thereby scoped to this modelled subset of the format. -/

/-- Decode a signed integer from its `width`-bit two's complement. -/
def signedOf (n half full : Nat) : Int :=
  if n < half then (n : Int) else (n : Int) - (full : Int)

/-- Parse `n` consecutive values using element parser `pv`. -/
def seqGo (pv : List Nat → Option (MValue × List Nat)) :
    Nat → List Nat → Option (List MValue × List Nat)
  | 0, bytes => some ([], bytes)
  | n + 1, bytes =>
    match pv bytes with
    | none => none
    | some (v, r) =>
      match seqGo pv n r with
      | none => none
      | some (vs, r') => some (v :: vs, r')

/-- Parse `n` consecutive key-value pairs using element parser `pv`; each
parsed key must pass the `strict_map_key` check (`msgpack.loads` raises on
other key types, modelled as parse failure). -/
def pairsGo (pv : List Nat → Option (MValue × List Nat)) :
    Nat → List Nat → Option (List (MValue × MValue) × List Nat)
  | 0, bytes => some ([], bytes)
  | n + 1, bytes =>
    match pv bytes with
    | none => none
    | some (k, r) =>
      if isMapKey k then
        match pv r with
        | none => none
        | some (v, r') =>
          match pairsGo pv n r' with
          | none => none
          | some (kvs, r'') => some ((k, v) :: kvs, r'')
      else none

def parseV : Nat → List Nat → Option (MValue × List Nat)
  | 0, _ => none
  | fuel + 1, bytes =>
    match bytes with
    | [] => none
    | b :: rest =>
      if b < 0x80 then some (.int (b : Int), rest)
      else if 0xe0 ≤ b then
        if b ≤ 0xff then some (.int ((b : Int) - 0x100), rest) else none
      else if b < 0x90 then
        (pairsGo (parseV fuel) (b - 0x80) rest).map (fun p => (.map p.1, p.2))
      else if b < 0xa0 then
        (seqGo (parseV fuel) (b - 0x90) rest).map (fun p => (.arr p.1, p.2))
      else if b < 0xc0 then
        (takeN (b - 0xa0) rest).map (fun p => (.str p.1, p.2))
      else if b = 0xc0 then some (.nil, rest)
      else if b = 0xc2 then some (.bool false, rest)
      else if b = 0xc3 then some (.bool true, rest)
      else if b = 0xc4 then
        match readBE 1 rest with
        | none => none
        | some (n, r) => (takeN n r).map (fun p => (.bin p.1, p.2))
      else if b = 0xc5 then
        match readBE 2 rest with
        | none => none
        | some (n, r) => (takeN n r).map (fun p => (.bin p.1, p.2))
      else if b = 0xc6 then
        match readBE 4 rest with
        | none => none
        | some (n, r) => (takeN n r).map (fun p => (.bin p.1, p.2))
      else if b = 0xcb then
        (readBE 8 rest).map (fun p => (.float p.1, p.2))
      else if b = 0xcc then
        (readBE 1 rest).map (fun p => (.int (p.1 : Int), p.2))
      else if b = 0xcd then
        (readBE 2 rest).map (fun p => (.int (p.1 : Int), p.2))
      else if b = 0xce then
        (readBE 4 rest).map (fun p => (.int (p.1 : Int), p.2))
      else if b = 0xcf then
        (readBE 8 rest).map (fun p => (.int (p.1 : Int), p.2))
      else if b = 0xd0 then
        (readBE 1 rest).map (fun p => (.int (signedOf p.1 0x80 0x100), p.2))
      else if b = 0xd1 then
        (readBE 2 rest).map (fun p => (.int (signedOf p.1 0x8000 0x10000), p.2))
      else if b = 0xd2 then
        (readBE 4 rest).map (fun p => (.int (signedOf p.1 0x80000000 0x100000000), p.2))
      else if b = 0xd3 then
        (readBE 8 rest).map
          (fun p => (.int (signedOf p.1 0x8000000000000000 0x10000000000000000), p.2))
      else if b = 0xd9 then
        match readBE 1 rest with
        | none => none
        | some (n, r) => (takeN n r).map (fun p => (.str p.1, p.2))
      else if b = 0xda then
        match readBE 2 rest with
        | none => none
        | some (n, r) => (takeN n r).map (fun p => (.str p.1, p.2))
      else if b = 0xdb then
        match readBE 4 rest with
        | none => none
        | some (n, r) => (takeN n r).map (fun p => (.str p.1, p.2))
      else if b = 0xdc then
        match readBE 2 rest with
        | none => none
        | some (n, r) => (seqGo (parseV fuel) n r).map (fun p => (.arr p.1, p.2))
      else if b = 0xdd then
        match readBE 4 rest with
        | none => none
        | some (n, r) => (seqGo (parseV fuel) n r).map (fun p => (.arr p.1, p.2))
      else if b = 0xde then
        match readBE 2 rest with
        | none => none
        | some (n, r) => (pairsGo (parseV fuel) n r).map (fun p => (.map p.1, p.2))
      else if b = 0xdf then
        match readBE 4 rest with
        | none => none
        | some (n, r) => (pairsGo (parseV fuel) n r).map (fun p => (.map p.1, p.2))
      else none

/-- `msgpack.loads`: parse one value and require the input to be fully
consumed (the unpacker raises on extra data), returning `none` where the
Python call raises. -/
def msgLoads (bytes : List Nat) : Option MValue :=
  match parseV (bytes.length + 1) bytes with
  | some (v, []) => some v
  | _ => none

/-! ### Parser unfolding lemmas -/

theorem parseV_c0 (fuel : Nat) (rest : List Nat) :
    parseV (fuel + 1) (0xc0 :: rest) = some (.nil, rest) := rfl

theorem parseV_c2 (fuel : Nat) (rest : List Nat) :
    parseV (fuel + 1) (0xc2 :: rest) = some (.bool false, rest) := rfl

theorem parseV_c3 (fuel : Nat) (rest : List Nat) :
    parseV (fuel + 1) (0xc3 :: rest) = some (.bool true, rest) := rfl

theorem parseV_c4 (fuel : Nat) (rest : List Nat) :
    parseV (fuel + 1) (0xc4 :: rest) =
      match readBE 1 rest with
      | none => none
      | some (n, r) => (takeN n r).map (fun p => (.bin p.1, p.2)) := rfl

theorem parseV_c5 (fuel : Nat) (rest : List Nat) :
    parseV (fuel + 1) (0xc5 :: rest) =
      match readBE 2 rest with
      | none => none
      | some (n, r) => (takeN n r).map (fun p => (.bin p.1, p.2)) := rfl

theorem parseV_c6 (fuel : Nat) (rest : List Nat) :
    parseV (fuel + 1) (0xc6 :: rest) =
      match readBE 4 rest with
      | none => none
      | some (n, r) => (takeN n r).map (fun p => (.bin p.1, p.2)) := rfl

theorem parseV_cb (fuel : Nat) (rest : List Nat) :
    parseV (fuel + 1) (0xcb :: rest) =
      (readBE 8 rest).map (fun p => (.float p.1, p.2)) := rfl

theorem parseV_cc (fuel : Nat) (rest : List Nat) :
    parseV (fuel + 1) (0xcc :: rest) =
      (readBE 1 rest).map (fun p => (.int (p.1 : Int), p.2)) := rfl

theorem parseV_cd (fuel : Nat) (rest : List Nat) :
    parseV (fuel + 1) (0xcd :: rest) =
      (readBE 2 rest).map (fun p => (.int (p.1 : Int), p.2)) := rfl

theorem parseV_ce (fuel : Nat) (rest : List Nat) :
    parseV (fuel + 1) (0xce :: rest) =
      (readBE 4 rest).map (fun p => (.int (p.1 : Int), p.2)) := rfl

theorem parseV_cf (fuel : Nat) (rest : List Nat) :
    parseV (fuel + 1) (0xcf :: rest) =
      (readBE 8 rest).map (fun p => (.int (p.1 : Int), p.2)) := rfl

theorem parseV_d0 (fuel : Nat) (rest : List Nat) :
    parseV (fuel + 1) (0xd0 :: rest) =
      (readBE 1 rest).map (fun p => (.int (signedOf p.1 0x80 0x100), p.2)) := rfl

theorem parseV_d1 (fuel : Nat) (rest : List Nat) :
    parseV (fuel + 1) (0xd1 :: rest) =
      (readBE 2 rest).map (fun p => (.int (signedOf p.1 0x8000 0x10000), p.2)) := rfl

theorem parseV_d2 (fuel : Nat) (rest : List Nat) :
    parseV (fuel + 1) (0xd2 :: rest) =
      (readBE 4 rest).map
        (fun p => (.int (signedOf p.1 0x80000000 0x100000000), p.2)) := rfl

theorem parseV_d3 (fuel : Nat) (rest : List Nat) :
    parseV (fuel + 1) (0xd3 :: rest) =
      (readBE 8 rest).map
        (fun p => (.int (signedOf p.1 0x8000000000000000 0x10000000000000000), p.2)) := rfl

theorem parseV_d9 (fuel : Nat) (rest : List Nat) :
    parseV (fuel + 1) (0xd9 :: rest) =
      match readBE 1 rest with
      | none => none
      | some (n, r) => (takeN n r).map (fun p => (.str p.1, p.2)) := rfl

theorem parseV_da (fuel : Nat) (rest : List Nat) :
    parseV (fuel + 1) (0xda :: rest) =
      match readBE 2 rest with
      | none => none
      | some (n, r) => (takeN n r).map (fun p => (.str p.1, p.2)) := rfl

theorem parseV_db (fuel : Nat) (rest : List Nat) :
    parseV (fuel + 1) (0xdb :: rest) =
      match readBE 4 rest with
      | none => none
      | some (n, r) => (takeN n r).map (fun p => (.str p.1, p.2)) := rfl

theorem parseV_dc (fuel : Nat) (rest : List Nat) :
    parseV (fuel + 1) (0xdc :: rest) =
      match readBE 2 rest with
      | none => none
      | some (n, r) => (seqGo (parseV fuel) n r).map (fun p => (.arr p.1, p.2)) := rfl

theorem parseV_dd (fuel : Nat) (rest : List Nat) :
    parseV (fuel + 1) (0xdd :: rest) =
      match readBE 4 rest with
      | none => none
      | some (n, r) => (seqGo (parseV fuel) n r).map (fun p => (.arr p.1, p.2)) := rfl

theorem parseV_de (fuel : Nat) (rest : List Nat) :
    parseV (fuel + 1) (0xde :: rest) =
      match readBE 2 rest with
      | none => none
      | some (n, r) => (pairsGo (parseV fuel) n r).map (fun p => (.map p.1, p.2)) := rfl

theorem parseV_df (fuel : Nat) (rest : List Nat) :
    parseV (fuel + 1) (0xdf :: rest) =
      match readBE 4 rest with
      | none => none
      | some (n, r) => (pairsGo (parseV fuel) n r).map (fun p => (.map p.1, p.2)) := rfl

theorem parseV_fixint (fuel b : Nat) (rest : List Nat) (h : b < 0x80) :
    parseV (fuel + 1) (b :: rest) = some (.int (b : Int), rest) := by
  simp only [parseV]
  rw [if_pos h]

theorem parseV_fixmap (fuel b : Nat) (rest : List Nat) (h1 : 0x80 ≤ b) (h2 : b < 0x90) :
    parseV (fuel + 1) (b :: rest) =
      (pairsGo (parseV fuel) (b - 0x80) rest).map (fun p => (.map p.1, p.2)) := by
  simp only [parseV]
  rw [if_neg (by omega), if_neg (by omega), if_pos h2]

theorem parseV_fixarr (fuel b : Nat) (rest : List Nat) (h1 : 0x90 ≤ b) (h2 : b < 0xa0) :
    parseV (fuel + 1) (b :: rest) =
      (seqGo (parseV fuel) (b - 0x90) rest).map (fun p => (.arr p.1, p.2)) := by
  simp only [parseV]
  rw [if_neg (by omega), if_neg (by omega), if_neg (by omega), if_pos h2]

theorem parseV_fixstr (fuel b : Nat) (rest : List Nat) (h1 : 0xa0 ≤ b) (h2 : b < 0xc0) :
    parseV (fuel + 1) (b :: rest) =
      (takeN (b - 0xa0) rest).map (fun p => (.str p.1, p.2)) := by
  simp only [parseV]
  rw [if_neg (by omega), if_neg (by omega), if_neg (by omega), if_neg (by omega), if_pos h2]

theorem parseV_negfixint (fuel b : Nat) (rest : List Nat) (h1 : 0xe0 ≤ b) (h2 : b ≤ 0xff) :
    parseV (fuel + 1) (b :: rest) = some (.int ((b : Int) - 0x100), rest) := by
  simp only [parseV]
  rw [if_neg (by omega), if_pos h1, if_pos h2]

/-! ### Parser completeness over encoder output -/

theorem seqGo_complete (pv : List Nat → Option (MValue × List Nat)) :
    ∀ (vs : List MValue),
    (∀ v ∈ vs, ∀ r, pv (msgDumpsV v ++ r) = some (v, r)) →
    ∀ (rest : List Nat),
    seqGo pv vs.length (msgDumpsList vs ++ rest) = some (vs, rest) := by
  intro vs
  induction vs with
  | nil =>
    intro _ rest
    simp [seqGo, msgDumpsList]
  | cons v vs ih =>
    intro h rest
    have hv := h v (List.mem_cons_self v vs) (msgDumpsList vs ++ rest)
    have hrec := ih (fun w hw r => h w (List.mem_cons_of_mem v hw) r) rest
    simp only [List.length_cons, msgDumpsList, List.append_assoc, seqGo, hv, hrec]

theorem pairsGo_complete (pv : List Nat → Option (MValue × List Nat)) :
    ∀ (kvs : List (MValue × MValue)),
    (∀ kv ∈ kvs, (∀ r, pv (msgDumpsV kv.1 ++ r) = some (kv.1, r)) ∧
      (∀ r, pv (msgDumpsV kv.2 ++ r) = some (kv.2, r)) ∧
      isMapKey kv.1 = true) →
    ∀ (rest : List Nat),
    pairsGo pv kvs.length (msgDumpsPairs kvs ++ rest) = some (kvs, rest) := by
  intro kvs
  induction kvs with
  | nil =>
    intro _ rest
    simp [pairsGo, msgDumpsPairs]
  | cons kv kvs ih =>
    intro h rest
    obtain ⟨k, v⟩ := kv
    have hk := (h (k, v) (List.mem_cons_self _ kvs)).1 (msgDumpsV v ++ (msgDumpsPairs kvs ++ rest))
    have hv := (h (k, v) (List.mem_cons_self _ kvs)).2.1 (msgDumpsPairs kvs ++ rest)
    have hkey := (h (k, v) (List.mem_cons_self _ kvs)).2.2
    have hrec := ih (fun kw hw => h kw (List.mem_cons_of_mem _ hw)) rest
    simp only [List.length_cons, msgDumpsPairs, List.append_assoc, pairsGo, hk, hv, hkey,
      hrec, if_true]

theorem pow256_1 : (256 : Nat) ^ 1 = 256 := by norm_num

theorem pow256_2 : (256 : Nat) ^ 2 = 65536 := by norm_num

theorem pow256_4 : (256 : Nat) ^ 4 = 4294967296 := by norm_num

theorem pow256_8 : (256 : Nat) ^ 8 = 18446744073709551616 := by norm_num

theorem vdepth_pos (v : MValue) : 1 ≤ vdepth v := by
  cases v with
  | arr vs => exact Nat.le_add_right 1 (ldepth vs)
  | map kvs => exact Nat.le_add_right 1 (pdepth kvs)
  | nil => exact Nat.le_refl 1
  | bool b => exact Nat.le_refl 1
  | int i => exact Nat.le_refl 1
  | float bits => exact Nat.le_refl 1
  | str s => exact Nat.le_refl 1
  | bin b => exact Nat.le_refl 1

mutual

theorem parseV_complete (v : MValue) : wfV v = true → ∀ fuel, vdepth v ≤ fuel →
    ∀ rest, parseV fuel (msgDumpsV v ++ rest) = some (v, rest) := by
  intro hwf fuel hfuel rest
  have hpos : 1 ≤ vdepth v := vdepth_pos v
  obtain ⟨f, rfl⟩ : ∃ f, fuel = f + 1 := ⟨fuel - 1, by omega⟩
  cases v with
  | nil => exact parseV_c0 f rest
  | bool b =>
    cases b with
    | false => exact parseV_c2 f rest
    | true => exact parseV_c3 f rest
  | int i =>
    have hr : -(2 ^ 63) ≤ i ∧ i < 2 ^ 64 :=
      of_decide_eq_true (p := -(2 ^ 63) ≤ i ∧ i < 2 ^ 64) hwf
    norm_num at hr
    show parseV (f + 1) (intBytes i ++ rest) = some (.int i, rest)
    by_cases h0 : 0 ≤ i
    · by_cases h1 : i < 0x80
      · rw [show intBytes i = [i.toNat] from by unfold intBytes; rw [if_pos h0, if_pos h1],
          List.singleton_append, parseV_fixint f _ rest (by omega)]
        rw [Int.toNat_of_nonneg h0]
      · by_cases h2 : i ≤ 0xff
        · rw [show intBytes i = 0xcc :: beBytes 1 i.toNat from by
            unfold intBytes; rw [if_pos h0, if_neg h1, if_pos h2], List.cons_append,
            parseV_cc, readBE_append 1 i.toNat (by rw [pow256_1]; omega) rest]
          simp [Int.toNat_of_nonneg h0]
        · by_cases h3 : i ≤ 0xffff
          · rw [show intBytes i = 0xcd :: beBytes 2 i.toNat from by
              unfold intBytes; rw [if_pos h0, if_neg h1, if_neg h2, if_pos h3],
              List.cons_append, parseV_cd,
              readBE_append 2 i.toNat (by rw [pow256_2]; omega) rest]
            simp [Int.toNat_of_nonneg h0]
          · by_cases h4 : i ≤ 0xffffffff
            · rw [show intBytes i = 0xce :: beBytes 4 i.toNat from by
                unfold intBytes; rw [if_pos h0, if_neg h1, if_neg h2, if_neg h3, if_pos h4],
                List.cons_append, parseV_ce,
                readBE_append 4 i.toNat (by rw [pow256_4]; omega) rest]
              simp [Int.toNat_of_nonneg h0]
            · rw [show intBytes i = 0xcf :: beBytes 8 i.toNat from by
                unfold intBytes; rw [if_pos h0, if_neg h1, if_neg h2, if_neg h3, if_neg h4],
                List.cons_append, parseV_cf,
                readBE_append 8 i.toNat (by rw [pow256_8]; omega) rest]
              simp [Int.toNat_of_nonneg h0]
    · by_cases g1 : -0x20 ≤ i
      · rw [show intBytes i = [(i + 0x100).toNat] from by
          unfold intBytes; rw [if_neg h0, if_pos g1], List.singleton_append,
          parseV_negfixint f _ rest (by omega) (by omega)]
        have : ((((i + 0x100).toNat : Nat) : Int) - 0x100) = i := by omega
        rw [this]
      · by_cases g2 : -0x80 ≤ i
        · rw [show intBytes i = 0xd0 :: beBytes 1 (i + 0x100).toNat from by
            unfold intBytes; rw [if_neg h0, if_neg g1, if_pos g2], List.cons_append,
            parseV_d0, readBE_append 1 _ (by rw [pow256_1]; omega) rest]
          have : signedOf (i + 0x100).toNat 0x80 0x100 = i := by
            unfold signedOf; rw [if_neg (by omega)]; omega
          simp [this]
        · by_cases g3 : -0x8000 ≤ i
          · rw [show intBytes i = 0xd1 :: beBytes 2 (i + 0x10000).toNat from by
              unfold intBytes; rw [if_neg h0, if_neg g1, if_neg g2, if_pos g3],
              List.cons_append, parseV_d1, readBE_append 2 _ (by rw [pow256_2]; omega) rest]
            have : signedOf (i + 0x10000).toNat 0x8000 0x10000 = i := by
              unfold signedOf; rw [if_neg (by omega)]; omega
            simp [this]
          · by_cases g4 : -0x80000000 ≤ i
            · rw [show intBytes i = 0xd2 :: beBytes 4 (i + 0x100000000).toNat from by
                unfold intBytes; rw [if_neg h0, if_neg g1, if_neg g2, if_neg g3, if_pos g4],
                List.cons_append, parseV_d2,
                readBE_append 4 _ (by rw [pow256_4]; omega) rest]
              have : signedOf (i + 0x100000000).toNat 0x80000000 0x100000000 = i := by
                unfold signedOf; rw [if_neg (by omega)]; omega
              simp [this]
            · rw [show intBytes i = 0xd3 :: beBytes 8 (i + 0x10000000000000000).toNat from by
                unfold intBytes; rw [if_neg h0, if_neg g1, if_neg g2, if_neg g3, if_neg g4],
                List.cons_append, parseV_d3,
                readBE_append 8 _ (by rw [pow256_8]; omega) rest]
              have : signedOf (i + 0x10000000000000000).toNat
                  0x8000000000000000 0x10000000000000000 = i := by
                unfold signedOf; rw [if_neg (by omega)]; omega
              simp [this]
  | float bits =>
    have hb : bits < 2 ^ 64 := of_decide_eq_true (p := bits < 2 ^ 64) hwf
    show parseV (f + 1) ((0xcb :: beBytes 8 bits) ++ rest) = some (.float bits, rest)
    rw [List.cons_append, parseV_cb, readBE_append 8 bits (by rw [pow256_8]; omega) rest]
    rfl
  | str s =>
    have h2 : (decide (s.length < 2 ^ 32) && s.all (· < 256)) = true := hwf
    rw [Bool.and_eq_true] at h2
    have hlen : s.length < 2 ^ 32 := of_decide_eq_true h2.1
    norm_num at hlen
    show parseV (f + 1) ((strHeader s.length ++ s) ++ rest) = some (.str s, rest)
    rw [List.append_assoc]
    by_cases h1 : s.length < 0x20
    · rw [show strHeader s.length = [0xa0 + s.length] from by unfold strHeader; rw [if_pos h1],
        List.singleton_append, parseV_fixstr f _ _ (by omega) (by omega),
        show 0xa0 + s.length - 0xa0 = s.length from by omega, takeN_append s rest]
      rfl
    · by_cases h2 : s.length ≤ 0xff
      · rw [show strHeader s.length = 0xd9 :: beBytes 1 s.length from by
          unfold strHeader; rw [if_neg h1, if_pos h2], List.cons_append, parseV_d9,
          readBE_append 1 _ (by rw [pow256_1]; omega) _]
        rw [show ((match (some (s.length, s ++ rest) : Option (Nat × List Nat)) with
          | none => none
          | some (n, r) => (takeN n r).map (fun p => (MValue.str p.1, p.2))) :
            Option (MValue × List Nat))
          = (takeN s.length (s ++ rest)).map (fun p => (MValue.str p.1, p.2)) from rfl,
          takeN_append s rest]
        rfl
      · by_cases h3 : s.length ≤ 0xffff
        · rw [show strHeader s.length = 0xda :: beBytes 2 s.length from by
            unfold strHeader; rw [if_neg h1, if_neg h2, if_pos h3], List.cons_append,
            parseV_da, readBE_append 2 _ (by rw [pow256_2]; omega) _]
          rw [show ((match (some (s.length, s ++ rest) : Option (Nat × List Nat)) with
            | none => none
            | some (n, r) => (takeN n r).map (fun p => (MValue.str p.1, p.2))) :
              Option (MValue × List Nat))
            = (takeN s.length (s ++ rest)).map (fun p => (MValue.str p.1, p.2)) from rfl,
            takeN_append s rest]
          rfl
        · rw [show strHeader s.length = 0xdb :: beBytes 4 s.length from by
            unfold strHeader; rw [if_neg h1, if_neg h2, if_neg h3], List.cons_append,
            parseV_db, readBE_append 4 _ (by rw [pow256_4]; omega) _]
          rw [show ((match (some (s.length, s ++ rest) : Option (Nat × List Nat)) with
            | none => none
            | some (n, r) => (takeN n r).map (fun p => (MValue.str p.1, p.2))) :
              Option (MValue × List Nat))
            = (takeN s.length (s ++ rest)).map (fun p => (MValue.str p.1, p.2)) from rfl,
            takeN_append s rest]
          rfl
  | bin b =>
    have h2 : (decide (b.length < 2 ^ 32) && b.all (· < 256)) = true := hwf
    rw [Bool.and_eq_true] at h2
    have hlen : b.length < 2 ^ 32 := of_decide_eq_true h2.1
    norm_num at hlen
    show parseV (f + 1) ((binHeader b.length ++ b) ++ rest) = some (.bin b, rest)
    rw [List.append_assoc]
    by_cases h2' : b.length ≤ 0xff
    · rw [show binHeader b.length = 0xc4 :: beBytes 1 b.length from by
        unfold binHeader; rw [if_pos h2'], List.cons_append, parseV_c4,
        readBE_append 1 _ (by rw [pow256_1]; omega) _]
      rw [show ((match (some (b.length, b ++ rest) : Option (Nat × List Nat)) with
        | none => none
        | some (n, r) => (takeN n r).map (fun p => (MValue.bin p.1, p.2))) :
          Option (MValue × List Nat))
        = (takeN b.length (b ++ rest)).map (fun p => (MValue.bin p.1, p.2)) from rfl,
        takeN_append b rest]
      rfl
    · by_cases h3 : b.length ≤ 0xffff
      · rw [show binHeader b.length = 0xc5 :: beBytes 2 b.length from by
          unfold binHeader; rw [if_neg h2', if_pos h3], List.cons_append, parseV_c5,
          readBE_append 2 _ (by rw [pow256_2]; omega) _]
        rw [show ((match (some (b.length, b ++ rest) : Option (Nat × List Nat)) with
          | none => none
          | some (n, r) => (takeN n r).map (fun p => (MValue.bin p.1, p.2))) :
            Option (MValue × List Nat))
          = (takeN b.length (b ++ rest)).map (fun p => (MValue.bin p.1, p.2)) from rfl,
          takeN_append b rest]
        rfl
      · rw [show binHeader b.length = 0xc6 :: beBytes 4 b.length from by
          unfold binHeader; rw [if_neg h2', if_neg h3], List.cons_append, parseV_c6,
          readBE_append 4 _ (by rw [pow256_4]; omega) _]
        rw [show ((match (some (b.length, b ++ rest) : Option (Nat × List Nat)) with
          | none => none
          | some (n, r) => (takeN n r).map (fun p => (MValue.bin p.1, p.2))) :
            Option (MValue × List Nat))
          = (takeN b.length (b ++ rest)).map (fun p => (MValue.bin p.1, p.2)) from rfl,
          takeN_append b rest]
        rfl
  | arr vs =>
    have h2 : (decide (vs.length < 2 ^ 32) && wfList vs) = true := hwf
    rw [Bool.and_eq_true] at h2
    have hlen : vs.length < 2 ^ 32 := of_decide_eq_true h2.1
    norm_num at hlen
    have hdep : ldepth vs ≤ f := by
      have : vdepth (.arr vs) = 1 + ldepth vs := rfl
      omega
    have helems : ∀ w ∈ vs, ∀ r, parseV f (msgDumpsV w ++ r) = some (w, r) :=
      parseList_complete vs h2.2 f hdep
    show parseV (f + 1) ((arrHeader vs.length ++ msgDumpsList vs) ++ rest)
      = some (.arr vs, rest)
    rw [List.append_assoc]
    by_cases h1 : vs.length < 0x10
    · rw [show arrHeader vs.length = [0x90 + vs.length] from by
        unfold arrHeader; rw [if_pos h1], List.singleton_append,
        parseV_fixarr f _ _ (by omega) (by omega),
        show 0x90 + vs.length - 0x90 = vs.length from by omega,
        seqGo_complete (parseV f) vs helems rest]
      rfl
    · by_cases h3 : vs.length ≤ 0xffff
      · rw [show arrHeader vs.length = 0xdc :: beBytes 2 vs.length from by
          unfold arrHeader; rw [if_neg h1, if_pos h3], List.cons_append, parseV_dc,
          readBE_append 2 _ (by rw [pow256_2]; omega) _]
        rw [show ((match (some (vs.length, msgDumpsList vs ++ rest) :
            Option (Nat × List Nat)) with
          | none => none
          | some (n, r) => (seqGo (parseV f) n r).map (fun p => (MValue.arr p.1, p.2))) :
            Option (MValue × List Nat))
          = (seqGo (parseV f) vs.length (msgDumpsList vs ++ rest)).map
              (fun p => (MValue.arr p.1, p.2)) from rfl,
          seqGo_complete (parseV f) vs helems rest]
        rfl
      · rw [show arrHeader vs.length = 0xdd :: beBytes 4 vs.length from by
          unfold arrHeader; rw [if_neg h1, if_neg h3], List.cons_append, parseV_dd,
          readBE_append 4 _ (by rw [pow256_4]; omega) _]
        rw [show ((match (some (vs.length, msgDumpsList vs ++ rest) :
            Option (Nat × List Nat)) with
          | none => none
          | some (n, r) => (seqGo (parseV f) n r).map (fun p => (MValue.arr p.1, p.2))) :
            Option (MValue × List Nat))
          = (seqGo (parseV f) vs.length (msgDumpsList vs ++ rest)).map
              (fun p => (MValue.arr p.1, p.2)) from rfl,
          seqGo_complete (parseV f) vs helems rest]
        rfl
  | map kvs =>
    have h2 : (decide (kvs.length < 2 ^ 32) && wfPairs kvs) = true := hwf
    rw [Bool.and_eq_true] at h2
    have hlen : kvs.length < 2 ^ 32 := of_decide_eq_true h2.1
    norm_num at hlen
    have hdep : pdepth kvs ≤ f := by
      have : vdepth (.map kvs) = 1 + pdepth kvs := rfl
      omega
    have helems : ∀ kv ∈ kvs, (∀ r, parseV f (msgDumpsV kv.1 ++ r) = some (kv.1, r)) ∧
        (∀ r, parseV f (msgDumpsV kv.2 ++ r) = some (kv.2, r)) ∧
        isMapKey kv.1 = true :=
      parsePairs_complete kvs h2.2 f hdep
    show parseV (f + 1) ((mapHeader kvs.length ++ msgDumpsPairs kvs) ++ rest)
      = some (.map kvs, rest)
    rw [List.append_assoc]
    by_cases h1 : kvs.length < 0x10
    · rw [show mapHeader kvs.length = [0x80 + kvs.length] from by
        unfold mapHeader; rw [if_pos h1], List.singleton_append,
        parseV_fixmap f _ _ (by omega) (by omega),
        show 0x80 + kvs.length - 0x80 = kvs.length from by omega,
        pairsGo_complete (parseV f) kvs helems rest]
      rfl
    · by_cases h3 : kvs.length ≤ 0xffff
      · rw [show mapHeader kvs.length = 0xde :: beBytes 2 kvs.length from by
          unfold mapHeader; rw [if_neg h1, if_pos h3], List.cons_append, parseV_de,
          readBE_append 2 _ (by rw [pow256_2]; omega) _]
        rw [show ((match (some (kvs.length, msgDumpsPairs kvs ++ rest) :
            Option (Nat × List Nat)) with
          | none => none
          | some (n, r) => (pairsGo (parseV f) n r).map (fun p => (MValue.map p.1, p.2))) :
            Option (MValue × List Nat))
          = (pairsGo (parseV f) kvs.length (msgDumpsPairs kvs ++ rest)).map
              (fun p => (MValue.map p.1, p.2)) from rfl,
          pairsGo_complete (parseV f) kvs helems rest]
        rfl
      · rw [show mapHeader kvs.length = 0xdf :: beBytes 4 kvs.length from by
          unfold mapHeader; rw [if_neg h1, if_neg h3], List.cons_append, parseV_df,
          readBE_append 4 _ (by rw [pow256_4]; omega) _]
        rw [show ((match (some (kvs.length, msgDumpsPairs kvs ++ rest) :
            Option (Nat × List Nat)) with
          | none => none
          | some (n, r) => (pairsGo (parseV f) n r).map (fun p => (MValue.map p.1, p.2))) :
            Option (MValue × List Nat))
          = (pairsGo (parseV f) kvs.length (msgDumpsPairs kvs ++ rest)).map
              (fun p => (MValue.map p.1, p.2)) from rfl,
          pairsGo_complete (parseV f) kvs helems rest]
        rfl

theorem parseList_complete (vs : List MValue) : wfList vs = true → ∀ fuel,
    ldepth vs ≤ fuel → ∀ v ∈ vs, ∀ r,
    parseV fuel (msgDumpsV v ++ r) = some (v, r) := by
  intro hwf fuel hd v hv r
  cases vs with
  | nil => exact absurd hv (List.not_mem_nil v)
  | cons w ws =>
    have hw : (wfV w && wfList ws) = true := hwf
    rw [Bool.and_eq_true] at hw
    have hdep : max (vdepth w) (ldepth ws) ≤ fuel := hd
    rcases List.mem_cons.mp hv with rfl | hv'
    · exact parseV_complete v hw.1 fuel (by omega) r
    · exact parseList_complete ws hw.2 fuel (by omega) v hv' r

theorem parsePairs_complete (kvs : List (MValue × MValue)) : wfPairs kvs = true → ∀ fuel,
    pdepth kvs ≤ fuel → ∀ kv ∈ kvs,
    (∀ r, parseV fuel (msgDumpsV kv.1 ++ r) = some (kv.1, r)) ∧
    (∀ r, parseV fuel (msgDumpsV kv.2 ++ r) = some (kv.2, r)) ∧
    isMapKey kv.1 = true := by
  intro hwf fuel hd kv hkv
  cases kvs with
  | nil => exact absurd hkv (List.not_mem_nil kv)
  | cons p ps =>
    obtain ⟨k, v⟩ := p
    have hw : (isMapKey k && wfV k && wfV v && wfPairs ps) = true := hwf
    rw [Bool.and_eq_true, Bool.and_eq_true, Bool.and_eq_true] at hw
    have hdep : max (max (vdepth k) (vdepth v)) (pdepth ps) ≤ fuel := hd
    rcases List.mem_cons.mp hkv with rfl | hkv'
    · exact ⟨fun r => parseV_complete k hw.1.1.2 fuel (by omega) r,
        fun r => parseV_complete v hw.1.2 fuel (by omega) r, hw.1.1.1⟩
    · exact parsePairs_complete ps hw.2 fuel (by omega) kv hkv'

end

theorem intBytes_len_pos (i : Int) : 1 ≤ (intBytes i).length := by
  unfold intBytes
  split_ifs <;> simp [beBytes_length]

theorem strHeader_len_pos (len : Nat) : 1 ≤ (strHeader len).length := by
  unfold strHeader
  split_ifs <;> simp [beBytes_length]

theorem binHeader_len_pos (len : Nat) : 1 ≤ (binHeader len).length := by
  unfold binHeader
  split_ifs <;> simp [beBytes_length]

theorem arrHeader_len_pos (len : Nat) : 1 ≤ (arrHeader len).length := by
  unfold arrHeader
  split_ifs <;> simp [beBytes_length]

theorem mapHeader_len_pos (len : Nat) : 1 ≤ (mapHeader len).length := by
  unfold mapHeader
  split_ifs <;> simp [beBytes_length]

mutual

theorem vdepth_le_len (v : MValue) : vdepth v ≤ (msgDumpsV v).length := by
  cases v with
  | nil => exact Nat.le_refl 1
  | bool b => cases b <;> exact Nat.le_refl 1
  | int i => exact intBytes_len_pos i
  | float bits =>
    show 1 ≤ (0xcb :: beBytes 8 bits).length
    simp
  | str s =>
    show 1 ≤ (strHeader s.length ++ s).length
    have := strHeader_len_pos s.length
    simp only [List.length_append]
    omega
  | bin b =>
    show 1 ≤ (binHeader b.length ++ b).length
    have := binHeader_len_pos b.length
    simp only [List.length_append]
    omega
  | arr vs =>
    show 1 + ldepth vs ≤ (arrHeader vs.length ++ msgDumpsList vs).length
    have h1 := arrHeader_len_pos vs.length
    have h2 := ldepth_le_len vs
    simp only [List.length_append]
    omega
  | map kvs =>
    show 1 + pdepth kvs ≤ (mapHeader kvs.length ++ msgDumpsPairs kvs).length
    have h1 := mapHeader_len_pos kvs.length
    have h2 := pdepth_le_len kvs
    simp only [List.length_append]
    omega

theorem ldepth_le_len (vs : List MValue) : ldepth vs ≤ (msgDumpsList vs).length := by
  cases vs with
  | nil => exact Nat.le_refl 0
  | cons v vs =>
    show max (vdepth v) (ldepth vs) ≤ (msgDumpsV v ++ msgDumpsList vs).length
    have h1 := vdepth_le_len v
    have h2 := ldepth_le_len vs
    simp only [List.length_append]
    omega

theorem pdepth_le_len (kvs : List (MValue × MValue)) :
    pdepth kvs ≤ (msgDumpsPairs kvs).length := by
  cases kvs with
  | nil => exact Nat.le_refl 0
  | cons kv kvs =>
    obtain ⟨k, v⟩ := kv
    have h1 := vdepth_le_len k
    have h2 := vdepth_le_len v
    have h3 := pdepth_le_len kvs
    simp only [pdepth, msgDumpsPairs, List.length_append]
    omega

end

/-- MessagePack round-trip: decoding an encoded well-formed value restores
it exactly (spec §8 P6 at the payload level). -/
theorem msgLoads_msgDumps (v : MValue) (hwf : wfV v = true) :
    msgLoads (msgDumps v) = some v := by
  unfold msgLoads msgDumps
  have h := parseV_complete v hwf ((msgDumpsV v).length + 1)
    (Nat.le_trans (vdepth_le_len v) (Nat.le_succ _)) []
  rw [List.append_nil] at h
  rw [h]

/-! ### UTF-8 byte sequences of Lean strings

Python `str.encode('utf-8')`, used for method names and for the f-string
error messages that end up as response content. -/

def utf8Bytes (s : String) : List Nat :=
  s.data.foldr (fun c acc => (String.utf8EncodeChar c).map (fun b => b.toNat) ++ acc) []

theorem utf8Bytes_append (s t : String) :
    utf8Bytes (s ++ t) = utf8Bytes s ++ utf8Bytes t := by
  unfold utf8Bytes
  rw [show (s ++ t).data = s.data ++ t.data from String.data_append s t]
  induction s.data with
  | nil => rfl
  | cons c cs ih => simp [List.foldr_cons, ih]

/-- Continuation-state UTF-8 validity check, one byte at a time: `need`
continuation bytes are still expected, the next of which must lie in
`[lo, hi]` (later ones in `[0x80, 0xbf]`).  The lead-byte table is the
Unicode standard's (RFC 3629), which Python's strict `bytes.decode('utf-8')`
implements: overlong forms, surrogates (`ed a0..`), code points above
U+10FFFF, stray continuation bytes and truncated sequences are all
rejected. -/
def isUtf8Go : List Nat → Nat → Nat → Nat → Bool
  | [], need, _, _ => need == 0
  | b :: rest, 0, _, _ =>
    if b < 0x80 then isUtf8Go rest 0 0 0
    else if 0xc2 ≤ b ∧ b ≤ 0xdf then isUtf8Go rest 1 0x80 0xbf
    else if b = 0xe0 then isUtf8Go rest 2 0xa0 0xbf
    else if b = 0xed then isUtf8Go rest 2 0x80 0x9f
    else if 0xe1 ≤ b ∧ b ≤ 0xef then isUtf8Go rest 2 0x80 0xbf
    else if b = 0xf0 then isUtf8Go rest 3 0x90 0xbf
    else if b = 0xf4 then isUtf8Go rest 3 0x80 0x8f
    else if 0xf1 ≤ b ∧ b ≤ 0xf3 then isUtf8Go rest 3 0x80 0xbf
    else false
  | b :: rest, need + 1, lo, hi =>
    if lo ≤ b ∧ b ≤ hi then isUtf8Go rest need 0x80 0xbf
    else false

/-- `bytes.decode('utf-8')` succeeds on exactly these byte strings (and is
then, under the byte-level string representation used here, the
identity). -/
def isUtf8 (bytes : List Nat) : Bool := isUtf8Go bytes 0 0 0

/-! ### Envelope objects (`szrpc/server.py`)

`Request` and `Response` model the classes of the same names.  Identifiers
are opaque byte strings; the method name is carried as its UTF-8 bytes
(`method.encode('utf-8')` / `method.decode('utf-8')` translate between the
Python `str` and these bytes, an exact bijection on the names the library
produces, so the model keeps the byte form throughout).  The derived
`identity` attribute (`request_id.decode('utf-8')`, recomputable from
`request_id`) is not carried in the model; its decode, like
`method.decode('utf-8')`, can raise on non-UTF-8 frames — a path modelled
by `Request.createChecked` below and unreachable from any constructible
request, whose identifier and method frames are valid UTF-8 by
construction. -/

/-- `ResponseType` enum: DONE=1, UPDATE=2, ERROR=3, HEARTBEAT=4, READY=5. -/
inductive ResponseType : Type where
  | DONE : ResponseType
  | UPDATE : ResponseType
  | ERROR : ResponseType
  | HEARTBEAT : ResponseType
  | READY : ResponseType
  deriving DecidableEq

def ResponseType.value : ResponseType → Int
  | .DONE => 1
  | .UPDATE => 2
  | .ERROR => 3
  | .HEARTBEAT => 4
  | .READY => 5

/-- `ResponseType(x)` on a decoded payload: succeeds on the five integer
kind codes, raises `ValueError` (here `none`) otherwise.  (Python's Enum
value lookup would also accept a numerically equal bool or float — e.g.
`True == 1` — a payload no component ever sends and no theorem relies
on.) -/
def ResponseType.ofValue : MValue → Option ResponseType
  | .int i =>
    if i = 1 then some .DONE
    else if i = 2 then some .UPDATE
    else if i = 3 then some .ERROR
    else if i = 4 then some .HEARTBEAT
    else if i = 5 then some .READY
    else none
  | _ => none

structure Request : Type where
  client_id : List Nat
  request_id : List Nat
  method : List Nat
  kwargs : List (MValue × MValue)

/-- `Request.parts`: `[request_id, method.encode('utf-8'), msgpack.dumps(kwargs)]`. -/
def Request.parts (r : Request) : List (List Nat) :=
  [r.request_id, r.method, msgDumps (.map r.kwargs)]

/-- `Request.create`: decode `arg_data`; keep the result as `kwargs` when it
is a dict, otherwise fall back to the empty dict.  `none` models
`msgpack.loads` raising on undecodable bytes.  This version does not model
the `method.decode('utf-8')` / `request_id.decode('utf-8')` calls, which
always succeed on the frames of a constructible request (valid UTF-8 by
construction); `Request.createChecked` below includes them. -/
def Request.create (client_id request_id method arg_data : List Nat) : Option Request :=
  (msgLoads arg_data).map (fun args =>
    { client_id := client_id, request_id := request_id, method := method,
      kwargs := match args with
        | .map kvs => kvs
        | _ => [] })

/-- `Request.create` with its full failure behaviour on raw network
frames: `args = msgpack.loads(arg_data)` runs first (raising on
undecodable bytes), then `method.decode('utf-8')` (server.py line 93),
then `Request.__init__`'s `request_id.decode('utf-8')` (line 61); each
decode raises `UnicodeDecodeError` on a non-UTF-8 frame, in that order.
Agrees with `Request.create` whenever both frames are valid UTF-8
(`createChecked_eq_create`). -/
def Request.createChecked (client_id request_id method arg_data : List Nat) :
    Option Request :=
  match msgLoads arg_data with
  | none => none
  | some args =>
    if isUtf8 method then
      if isUtf8 request_id then
        some { client_id := client_id, request_id := request_id, method := method,
               kwargs := match args with
                 | .map kvs => kvs
                 | _ => [] }
      else none
    else none

structure Response : Type where
  client_id : List Nat
  request_id : List Nat
  type : ResponseType
  content : MValue

/-- `Response.parts`:
`[client_id, request_id, msgpack.dumps(type.value), msgpack.dumps(content)]`. -/
def Response.parts (resp : Response) : List (List Nat) :=
  [resp.client_id, resp.request_id, msgDumps (.int resp.type.value), msgDumps resp.content]

/-- `Response.create`: rebuild a response from raw frames; `none` models the
`msgpack.loads` / `ResponseType(...)` calls raising. -/
def Response.create (client_id request_id response_type content : List Nat) :
    Option Response :=
  match msgLoads response_type with
  | none => none
  | some tv =>
    match ResponseType.ofValue tv with
    | none => none
    | some t =>
      match msgLoads content with
      | none => none
      | some c =>
        some { client_id := client_id, request_id := request_id, type := t, content := c }

/-- The UTF-8 bytes of `"heartbeat"`. -/
def heartbeatId : List Nat := utf8Bytes "heartbeat"

/-- `Response.heartbeat()`: the parts of `Response(b'', b'heartbeat',
ResponseType.HEARTBEAT, b'')`. -/
def Response.heartbeat : List (List Nat) :=
  Response.parts
    { client_id := [], request_id := heartbeatId, type := .HEARTBEAT, content := .bin [] }

/-! ### Service dispatch (`Service.call_remote`)

A service is modelled by its table of `remote__` methods (keyed by the
method name with the `remote__` sentinel stripped, as UTF-8 bytes).  A
method run is modelled by its observable effects: the UPDATE payloads it
pushed through `request.reply(..., UPDATE)` while running, followed by
either a returned value or the UTF-8 string form of a raised exception.
`call_remote` returns, in order, the responses it causes to be pushed to
the request's reply channel. -/

inductive CallOutcome : Type where
  | ret (updates : List MValue) (value : MValue) : CallOutcome
  | exc (updates : List MValue) (msg : List Nat) : CallOutcome

structure Service : Type where
  methods : List (List Nat × (Request → CallOutcome))

/-- Attribute lookup `self.remote__<name>`; `none` models `AttributeError`. -/
def lookupMethod (ms : List (List Nat × (Request → CallOutcome))) (name : List Nat) :
    Option (Request → CallOutcome) :=
  match ms with
  | [] => none
  | (n, f) :: rest => if n = name then some f else lookupMethod rest name

/-- `Request.reply`: build a `Response` bound to this request's identifiers
(the code also enqueues it on `reply_to`; `Service.call_remote` below
returns the queue of pushed responses). -/
def Request.reply (r : Request) (content : MValue) (response_type : ResponseType) :
    Response :=
  { client_id := r.client_id, request_id := r.request_id,
    type := response_type, content := content }

/-- Content of the unknown-method error:
`f'Service does not support remote method "{request.method}"'` (note the
double quotes around the interpolated name). -/
def errNoMethod (method : List Nat) : List Nat :=
  utf8Bytes "Service does not support remote method \"" ++ method ++ utf8Bytes "\""

/-- `Service.call_remote`: resolve `remote__<method>`; on `AttributeError`
reply a single ERROR; otherwise run the method and reply DONE with its
return value, or ERROR with `f'Error: {e}'` if it raised.  The returned
list is the full sequence of responses pushed for this call. -/
def Service.call_remote (svc : Service) (r : Request) : List Response :=
  match lookupMethod svc.methods r.method with
  | none => [r.reply (.str (errNoMethod r.method)) .ERROR]
  | some f =>
    match f r with
    | .ret ups v =>
      ups.map (fun u => r.reply u .UPDATE) ++ [r.reply v .DONE]
    | .exc ups msg =>
      ups.map (fun u => r.reply u .UPDATE) ++
        [r.reply (.str (utf8Bytes "Error: " ++ msg)) .ERROR]

/-- A response is terminal when its kind is DONE or ERROR. -/
def isTerminal (resp : Response) : Bool :=
  resp.type = ResponseType.DONE || resp.type = ResponseType.ERROR

/-! ### Deferred results (`szrpc/result/__init__.py`)

`SignalObject` holds a FIFO queue of emitted events (`Queue.put` appends,
`Queue.get` pops the head) and, per signal name, an ordered observer list
(`defaultdict(list)`).  `ResultMixin` adds the per-request result state;
`Result` combines the two, so one state record models the combined object.
Observer callbacks are opaque values of a type parameter `α`; `process`
returns, besides the new state, the list of observer invocations it
performs, each recorded as (callback, event args, bound args).  Keyword
arguments (always empty in every `emit` the library performs, and carried
alongside the positional ones in `connect`/`process`) are not modelled
separately; `args` stands for the positional argument tuples. -/

structure ResultState (α : Type) : Type where
  signals : List (String × List MValue)
  slots : List (String × List (α × List MValue))
  parts : List MValue
  results : Option (Sum MValue (List MValue))
  errors : Option MValue
  ready : Bool
  failed : Bool

def initResult (α : Type) : ResultState α :=
  { signals := [], slots := [], parts := [], results := none, errors := none,
    ready := false, failed := false }

/-- `self.slots.get(signal, [])` / `defaultdict` read: the observer list of
a signal, empty when the signal has no entry. -/
def slotsGet {α : Type} (m : List (String × List (α × List MValue))) (sig : String) :
    List (α × List MValue) :=
  match m with
  | [] => []
  | (s, l) :: rest => if s = sig then l else slotsGet rest sig

/-- Store a signal's observer list (`defaultdict` entry assignment: replace
in place when present, create otherwise). -/
def slotsSet {α : Type} (m : List (String × List (α × List MValue))) (sig : String)
    (l : List (α × List MValue)) : List (String × List (α × List MValue)) :=
  match m with
  | [] => [(sig, l)]
  | (s, x) :: rest => if s = sig then (sig, l) :: rest else (s, x) :: slotsSet rest sig l

/-- `SignalObject.emit`: enqueue `(signal, args)` on the signal queue. -/
def ResultState.emit {α : Type} (st : ResultState α) (signal : String)
    (args : List MValue) : ResultState α :=
  { st with signals := st.signals ++ [(signal, args)] }

/-- `SignalObject.process`: pop at most one event from the queue and invoke
every observer of that signal, in registration order, as
`slot(self, *args, *xargs)`.  Returns the new state and the performed
invocations. -/
def ResultState.process {α : Type} (st : ResultState α) :
    ResultState α × List (α × List MValue × List MValue) :=
  match st.signals with
  | [] => (st, [])
  | (signal, args) :: rest =>
    ({ st with signals := rest },
      (slotsGet st.slots signal).map (fun sl => (sl.1, args, sl.2)))

/-- `SignalObject.connect`: append `(slot, args)` to the signal's observer
list and return `len(self.slots[signal])` after the append. -/
def ResultState.connect {α : Type} (st : ResultState α) (signal : String) (slot : α)
    (args : List MValue) : ResultState α × Nat :=
  let l := slotsGet st.slots signal ++ [(slot, args)]
  ({ st with slots := slotsSet st.slots signal l }, l.length)

/-- `SignalObject.disconnect` on an integer handle: `pop(handle)` when
`0 < handle < len(self.slots[signal])`; otherwise the code falls through to
`list.remove((handle, args, kwargs))`, which for an integer handle matches
no entry and raises `ValueError` (modelled as `none`). -/
def ResultState.disconnect {α : Type} (st : ResultState α) (signal : String)
    (handle : Nat) : Option (ResultState α) :=
  let l := slotsGet st.slots signal
  if 0 < handle ∧ handle < l.length then
    some { st with slots := slotsSet st.slots signal (l.eraseIdx handle) }
  else none

/-- Python `None` arrives here as decoded msgpack nil. -/
def isNil : MValue → Bool
  | .nil => true
  | _ => false

/-- `ResultMixin.update`: append the payload to `parts` and emit `update`. -/
def ResultState.update {α : Type} (st : ResultState α) (info : MValue) : ResultState α :=
  ResultState.emit { st with parts := st.parts ++ [info] } "update" [info]

/-- `ResultMixin.failure`: record the error, mark failed and ready, emit
`failed`. -/
def ResultState.failure {α : Type} (st : ResultState α) (error : MValue) : ResultState α :=
  ResultState.emit { st with errors := some error, failed := true, ready := true }
    "failed" [error]

/-- `ResultMixin.done`: `results = info if info is not None else self.parts`,
mark ready, emit `done` with the raw argument. -/
def ResultState.done {α : Type} (st : ResultState α) (info : MValue) : ResultState α :=
  ResultState.emit
    { st with
      results := some (if isNil info then Sum.inr st.parts else Sum.inl info),
      ready := true }
    "done" [info]

/-- `ResultMixin.is_ready`: `self.ready or self.failed`. -/
def ResultState.is_ready {α : Type} (st : ResultState α) : Bool :=
  st.ready || st.failed

/-! ### LRU load-balancing broker (`Server.load_balancing_proxy`)

One iteration of the `while True` loop, acting on the loop-carried state
(`community`, `workers`, `backend_ready`, and whether the frontend socket is
registered with the poller).  `workers` models the insertion-ordered Python
dict as an association list (an assignment to an existing key updates the
value in place and keeps its position).  `time.time()` is modelled as an
integer `now` supplied per iteration; a backend message is abstracted to
the sending worker's identity frame and the decoded response kind, and a
frontend message to its presence (the forwarded frames do not affect the
loop state).  `poller.poll` runs once at the top of an iteration, so a
frontend event can only be delivered when the frontend was registered at
that point. -/

/-- `MAX_HEARTBEAT_INTERVAL = 2` (seconds), the broker's expiry window. -/
def MAX_HEARTBEAT_INTERVAL : Int := 2

structure BrokerState : Type where
  community : List (List Nat)
  workers : List (List Nat × Int)
  backend_ready : Bool
  frontend_polled : Bool
  deriving DecidableEq

def brokerInit : BrokerState :=
  { community := [], workers := [], backend_ready := false, frontend_polled := false }

/-- `workers[worker] = t` on the insertion-ordered dict. -/
def dictSet (ws : List (List Nat × Int)) (w : List Nat) (t : Int) :
    List (List Nat × Int) :=
  match ws with
  | [] => [(w, t)]
  | (x, tx) :: rest => if x = w then (w, t) :: rest else (x, tx) :: dictSet rest w t

/-- `worker in workers`. -/
def dictMem (ws : List (List Nat × Int)) (w : List Nat) : Bool :=
  ws.any (fun wt => wt.1 = w)

/-- The backend-event block of the loop body (lines 391-418): refresh or
admit the worker, extend the community, reinsert on DONE/ERROR, and start
polling the frontend when a worker becomes available while the backend was
not ready.  (Forwarding the non-heartbeat response to the frontend does not
change the loop state and is not modelled.) -/
def handleBackend (st : BrokerState) (worker : List Nat) (rtype : ResponseType)
    (now : Int) : BrokerState :=
  let inW := dictMem st.workers worker
  let inC := worker ∈ st.community
  let workers1 := if inW || !inC then dictSet st.workers worker now else st.workers
  let community1 := if !inC then st.community ++ [worker] else st.community
  let workers2 :=
    if (rtype = ResponseType.DONE || rtype = ResponseType.ERROR)
        && !dictMem workers1 worker then
      dictSet workers1 worker now
    else workers1
  if workers2 ≠ [] && !st.backend_ready then
    { community := community1, workers := workers2,
      backend_ready := true, frontend_polled := true }
  else
    { community := community1, workers := workers2,
      backend_ready := st.backend_ready, frontend_polled := st.frontend_polled }

/-- The expiry pass (lines 420-428): when the table is non-empty, drop every
worker whose last-seen time `t` satisfies `t <= now - MAX_HEARTBEAT_INTERVAL`
and, when any were dropped, remove them from the community. -/
def expireWorkers (workers : List (List Nat × Int)) (community : List (List Nat))
    (now : Int) : List (List Nat × Int) × List (List Nat) :=
  if workers = [] then (workers, community)
  else
    let expired := now - MAX_HEARTBEAT_INTERVAL
    let removed := (workers.filter (fun wt => wt.2 ≤ expired)).map Prod.fst
    let kept := workers.filter (fun wt => expired < wt.2)
    let community' :=
      if removed = [] then community
      else community.filter (fun w => ¬ w ∈ removed)
    (kept, community')

/-- The frontend-event block (lines 430-441): pop the oldest worker and
dispatch to it; if the table becomes empty, unregister the frontend and
clear `backend_ready`.  `next(iter(workers))` on an empty table raises
`StopIteration` and aborts the loop, modelled as `none`.  (The dispatched
frames do not change the loop state.) -/
def handleFrontend (st : BrokerState) : Option BrokerState :=
  match st.workers with
  | [] => none
  | _ :: rest =>
    if rest = [] then
      some { st with workers := rest, backend_ready := false, frontend_polled := false }
    else
      some { st with workers := rest }

/-- One full iteration of the LRU loop: optional backend event, then the
expiry pass, then the optional frontend event (deliverable only while the
frontend was registered when the iteration polled). -/
def brokerStep (st : BrokerState) (backendMsg : Option (List Nat × ResponseType))
    (frontendMsg : Bool) (now : Int) : Option BrokerState :=
  let st1 :=
    match backendMsg with
    | some (w, t) => handleBackend st w t now
    | none => st
  let ec := expireWorkers st1.workers st1.community now
  let st2 := { st1 with workers := ec.1, community := ec.2 }
  if frontendMsg && st.frontend_polled then handleFrontend st2 else some st2

/-! ### Supporting lemmas -/

theorem slotsGet_slotsSet {α : Type} (m : List (String × List (α × List MValue)))
    (sig : String) (l : List (α × List MValue)) :
    slotsGet (slotsSet m sig l) sig = l := by
  induction m with
  | nil => simp [slotsSet, slotsGet]
  | cons e rest ih =>
    obtain ⟨s, x⟩ := e
    by_cases h : s = sig
    · simp [slotsSet, slotsGet, h]
    · simp [slotsSet, slotsGet, h, ih]

theorem countP_updates (r : Request) (ups : List MValue) :
    (ups.map (fun u => r.reply u ResponseType.UPDATE)).countP isTerminal = 0 := by
  induction ups with
  | nil => rfl
  | cons u ups ih =>
    simp only [List.map_cons, List.countP_cons]
    rw [ih]
    rfl

/-! ### Claims -/

/-- C2 (counterexample): after a terminal `done`, a further `update` does
append to `parts` and does enqueue an event — the claim's "discarded" is
false on the code.  Concretely, updating a completed result grows `parts`
from 0 to 1 entries and the event queue from 1 to 2 entries. -/
theorem C2_counterexample :
    ResultState.is_ready ((initResult Nat).done .nil) = true ∧
    (((initResult Nat).done .nil).update (.int 5)).parts.length
      ≠ (((initResult Nat).done .nil)).parts.length ∧
    (((initResult Nat).done .nil).update (.int 5)).signals.length
      ≠ (((initResult Nat).done .nil)).signals.length := by
  refine ⟨rfl, ?_, ?_⟩ <;> decide

/-- C2 (amended): `ResultMixin.update` is unconditional — also after a
terminal transition (`done` or `failure`), `update(info)` appends `info` to
`parts` and enqueues an `('update', info)` event, leaving the terminal
flags untouched. -/
theorem C2_update_after_terminal {α : Type} (st : ResultState α) (info : MValue)
    (h : st.is_ready = true) :
    (st.update info).parts = st.parts ++ [info] ∧
    (st.update info).signals = st.signals ++ [("update", [info])] ∧
    (st.update info).ready = st.ready ∧
    (st.update info).failed = st.failed := by
  refine ⟨rfl, rfl, rfl, rfl⟩

/-- C2 witness: the amended statement at a concrete completed result. -/
theorem C2_update_after_terminal_witness :
    ResultState.is_ready ((initResult Nat).done .nil) = true ∧
    ((((initResult Nat).done .nil).update (.int 5)).parts
        = ((initResult Nat).done .nil).parts ++ [.int 5] ∧
      (((initResult Nat).done .nil).update (.int 5)).signals
        = ((initResult Nat).done .nil).signals ++ [("update", [.int 5])] ∧
      (((initResult Nat).done .nil).update (.int 5)).ready
        = ((initResult Nat).done .nil).ready ∧
      (((initResult Nat).done .nil).update (.int 5)).failed
        = ((initResult Nat).done .nil).failed) :=
  ⟨rfl, C2_update_after_terminal ((initResult Nat).done .nil) (.int 5) rfl⟩

/-- C4 (counterexample): a ready result can still dispatch observers: after
`done` the queued `done` event is delivered by the next `process()`, so a
`process()` call on a result whose `is_ready()` is true performs an
observer invocation. -/
theorem C4_counterexample :
    ResultState.is_ready ((((initResult Nat).connect "done" 7 []).1).done .nil) = true ∧
    (((((initResult Nat).connect "done" 7 []).1).done .nil).process).2.length ≠ 0 := by
  refine ⟨rfl, ?_⟩
  decide

/-- C4 (amended): once a result is ready and its event queue has been
drained, a further `process()` performs no observer invocation and leaves
the state unchanged (readiness itself never re-fills the queue). -/
theorem C4_process_after_drained {α : Type} (st : ResultState α)
    (hr : st.is_ready = true) (hq : st.signals = []) :
    st.process = (st, []) := by
  unfold ResultState.process
  rw [hq]

/-- C4 witness: the amended statement at a concrete ready, drained result. -/
theorem C4_process_after_drained_witness :
    ResultState.is_ready (⟨[], [], [], none, none, true, false⟩ : ResultState Nat) = true ∧
    ResultState.process (⟨[], [], [], none, none, true, false⟩ : ResultState Nat)
      = (⟨[], [], [], none, none, true, false⟩, []) :=
  ⟨rfl, C4_process_after_drained _ rfl rfl⟩

/-- C8 (counterexample): `connect` does not return the dense positional
index of the new entry: the first entry of signal `done` sits at index 0 of
a one-element observer list, yet `connect` returns 1. -/
theorem C8_counterexample :
    (slotsGet (((initResult Nat).connect "done" 7 []).1).slots "done").length = 1 ∧
    (((initResult Nat).connect "done" 7 []).2) ≠ 0 := by
  refine ⟨?_, ?_⟩ <;> decide

/-- C8 (amended): `connect` returns the length of the signal's observer
list after appending — one more than the 0-based position of the entry it
added.  Indexed `disconnect(signal, h)` with `0 < h < len` erases the entry
at 0-based position `h` — the entry added by the connect that returned
`h + 1`, not the one that returned `h` — keeping positions below `h` and
shifting positions above `h` down by one; a handle outside that range
(including `len`, the most recently returned handle) raises `ValueError`. -/
theorem C8_connect_disconnect {α : Type} (st : ResultState α) (sig : String)
    (slot : α) (args : List MValue) :
    ((st.connect sig slot args).2 = (slotsGet st.slots sig).length + 1 ∧
      slotsGet ((st.connect sig slot args).1).slots sig
        = slotsGet st.slots sig ++ [(slot, args)]) ∧
    (∀ h : Nat, 0 < h → h < (slotsGet st.slots sig).length →
      ∃ st', st.disconnect sig h = some st' ∧
        slotsGet st'.slots sig
          = (slotsGet st.slots sig).take h ++ (slotsGet st.slots sig).drop (h + 1)) ∧
    (∀ h : Nat, ¬ (0 < h ∧ h < (slotsGet st.slots sig).length) →
      st.disconnect sig h = none) := by
  refine ⟨⟨?_, ?_⟩, ?_, ?_⟩
  · simp [ResultState.connect]
  · simp [ResultState.connect, slotsGet_slotsSet]
  · intro h h1 h2
    refine ⟨{ st with
        slots := slotsSet st.slots sig ((slotsGet st.slots sig).eraseIdx h) }, ?_, ?_⟩
    · unfold ResultState.disconnect
      rw [if_pos ⟨h1, h2⟩]
    · rw [slotsGet_slotsSet, List.eraseIdx_eq_take_drop_succ]
  · intro h hno
    unfold ResultState.disconnect
    rw [if_neg hno]

/-- C8 witness: the amended statement at a concrete state with two
observers of signal `done` (handles 1 and 2): `disconnect` with handle 1
removes the handle-2 entry, leaving the handle-1 entry in place. -/
theorem C8_connect_disconnect_witness :
    (((((initResult Nat).connect "done" 7 []).1).connect "done" 8 []).2
        = (slotsGet ((((initResult Nat).connect "done" 7 []).1)).slots "done").length + 1)
    ∧ (∃ st',
      ResultState.disconnect (((((initResult Nat).connect "done" 7 []).1).connect
          "done" 8 []).1) "done" 1 = some st' ∧
        slotsGet st'.slots "done"
          = (slotsGet (((((initResult Nat).connect "done" 7 []).1).connect
              "done" 8 []).1).slots "done").take 1 ++
            (slotsGet (((((initResult Nat).connect "done" 7 []).1).connect
              "done" 8 []).1).slots "done").drop 2) :=
  ⟨(C8_connect_disconnect (((initResult Nat).connect "done" 7 []).1) "done" 8 []).1.1,
    (C8_connect_disconnect ((((initResult Nat).connect "done" 7 []).1).connect
      "done" 8 []).1 "done" 7 []).2.1 1 (by decide) (by decide)⟩

/-- C1 (code evaluated at the failing input): starting from the initial
broker state, a worker announces itself with a heartbeat at time 0 (the
broker admits it and starts polling the frontend), and the next iteration
runs at time 3 with no socket events.  The expiry pass drops the worker —
the table becomes empty — yet `backend_ready` stays `true` and the
frontend stays registered, violating the claimed invariant on exactly the
iteration whose expiry pass removed the last worker. -/
theorem C1_expiry_leaves_backend_ready :
    brokerStep brokerInit (some ([1], ResponseType.HEARTBEAT)) false 0
      = some { community := [[1]], workers := [([1], 0)],
               backend_ready := true, frontend_polled := true } ∧
    brokerStep
      { community := [[1]], workers := [([1], 0)],
        backend_ready := true, frontend_polled := true } none false 3
      = some { community := [], workers := [],
               backend_ready := true, frontend_polled := true } := by
  refine ⟨?_, ?_⟩ <;> decide

/-- C9 (counterexample): the expiry pass removes a worker whose last-seen
timestamp sits exactly at the threshold `now - MAX_HEARTBEAT_INTERVAL`
(here 1 = 3 - 2): the code drops on `t <= threshold`, while the claim
requires a worker with `t >= threshold` to be kept. -/
theorem C9_counterexample :
    (1 : Int) = 3 - MAX_HEARTBEAT_INTERVAL ∧
    expireWorkers [([1], 1)] [[1]] 3 = ([], []) := by
  refine ⟨?_, ?_⟩ <;> decide

/-- C9 (amended): on each iteration the expiry pass keeps in the workers
table exactly the entries with `now - MAX_HEARTBEAT_INTERVAL < t` (so it
removes exactly those with `t <= now - MAX_HEARTBEAT_INTERVAL`, threshold
included), and a community member survives the pass exactly when it has no
table entry at or below the threshold. -/
theorem expireWorkers_eq (workers : List (List Nat × Int))
    (community : List (List Nat)) (now : Int) (h : workers ≠ []) :
    expireWorkers workers community now =
      (workers.filter (fun wt => now - MAX_HEARTBEAT_INTERVAL < wt.2),
        if (workers.filter (fun wt => wt.2 ≤ now - MAX_HEARTBEAT_INTERVAL)).map
            Prod.fst = [] then community
        else community.filter (fun w =>
          ¬ w ∈ (workers.filter
            (fun wt => wt.2 ≤ now - MAX_HEARTBEAT_INTERVAL)).map Prod.fst)) := by
  unfold expireWorkers
  rw [if_neg h]

theorem C9_expiry_boundary (workers : List (List Nat × Int))
    (community : List (List Nat)) (now : Int) :
    (∀ wt : List Nat × Int,
      wt ∈ (expireWorkers workers community now).1
        ↔ wt ∈ workers ∧ now - MAX_HEARTBEAT_INTERVAL < wt.2) ∧
    (∀ w : List Nat,
      w ∈ (expireWorkers workers community now).2
        ↔ w ∈ community ∧
          ∀ t : Int, (w, t) ∈ workers → ¬ t ≤ now - MAX_HEARTBEAT_INTERVAL) := by
  by_cases hw : workers = []
  · subst hw
    constructor
    · intro wt
      show wt ∈ ([], community).1 ↔ _
      simp
    · intro w
      show w ∈ ([], community).2 ↔ _
      simp
  · rw [expireWorkers_eq workers community now hw]
    constructor
    · intro wt
      simp [List.mem_filter]
    · intro w
      by_cases hrem :
          (workers.filter (fun wt => wt.2 ≤ now - MAX_HEARTBEAT_INTERVAL)).map
            Prod.fst = []
      · rw [if_pos hrem]
        have hall : ∀ t : Int, (w, t) ∈ workers → ¬ t ≤ now - MAX_HEARTBEAT_INTERVAL := by
          intro t hmem hle
          have h1 : (w, t) ∈ workers.filter
              (fun wt => wt.2 ≤ now - MAX_HEARTBEAT_INTERVAL) :=
            List.mem_filter.mpr ⟨hmem, by simpa using hle⟩
          have h2 : w ∈ (workers.filter
              (fun wt => wt.2 ≤ now - MAX_HEARTBEAT_INTERVAL)).map Prod.fst :=
            List.mem_map.mpr ⟨(w, t), h1, rfl⟩
          rw [hrem] at h2
          exact absurd h2 (List.not_mem_nil w)
        exact ⟨fun hc => ⟨hc, hall⟩, fun hc => hc.1⟩
      · rw [if_neg hrem, List.mem_filter]
        constructor
        · rintro ⟨hc, hd⟩
          refine ⟨hc, ?_⟩
          intro t hmem hle
          have hin : w ∈ (workers.filter
              (fun wt => wt.2 ≤ now - MAX_HEARTBEAT_INTERVAL)).map Prod.fst :=
            List.mem_map.mpr ⟨(w, t), List.mem_filter.mpr ⟨hmem, by simpa using hle⟩, rfl⟩
          exact absurd hin (of_decide_eq_true hd)
        · rintro ⟨hc, hall⟩
          refine ⟨hc, decide_eq_true ?_⟩
          intro hin
          obtain ⟨⟨w', t⟩, hmem, heq⟩ := List.mem_map.mp hin
          obtain ⟨hmemw, hle⟩ := List.mem_filter.mp hmem
          cases heq
          exact hall t hmemw (by simpa using hle)

theorem call_remote_none (svc : Service) (r : Request)
    (h : lookupMethod svc.methods r.method = none) :
    svc.call_remote r = [r.reply (.str (errNoMethod r.method)) .ERROR] := by
  unfold Service.call_remote
  rw [h]

theorem call_remote_some (svc : Service) (r : Request) (f : Request → CallOutcome)
    (h : lookupMethod svc.methods r.method = some f) :
    svc.call_remote r =
      match f r with
      | .ret ups v => ups.map (fun u => r.reply u .UPDATE) ++ [r.reply v .DONE]
      | .exc ups msg => ups.map (fun u => r.reply u .UPDATE)
          ++ [r.reply (.str (utf8Bytes "Error: " ++ msg)) .ERROR] := by
  unfold Service.call_remote
  rw [h]

/-- C3: `call_remote` pushes exactly one terminal response in every path —
an ERROR when the method is absent, a DONE carrying the return value when
the resolved method returns, and an ERROR carrying `"Error: "` plus the
exception's string form when it raises; the streamed UPDATEs are never
terminal. -/
theorem C3_call_remote_one_terminal (svc : Service) (r : Request) :
    (svc.call_remote r).countP isTerminal = 1 ∧
    (lookupMethod svc.methods r.method = none →
      svc.call_remote r = [r.reply (.str (errNoMethod r.method)) .ERROR]) ∧
    (∀ f, lookupMethod svc.methods r.method = some f →
      (∀ ups v, f r = .ret ups v →
        svc.call_remote r
          = ups.map (fun u => r.reply u .UPDATE) ++ [r.reply v .DONE]) ∧
      (∀ ups msg, f r = .exc ups msg →
        svc.call_remote r = ups.map (fun u => r.reply u .UPDATE)
          ++ [r.reply (.str (utf8Bytes "Error: " ++ msg)) .ERROR])) := by
  refine ⟨?_, ?_, ?_⟩
  · cases hlk : lookupMethod svc.methods r.method with
    | none =>
      rw [call_remote_none svc r hlk]
      rfl
    | some f =>
      rw [call_remote_some svc r f hlk]
      cases hfr : f r with
      | ret ups v =>
        show (ups.map (fun u => r.reply u .UPDATE)
          ++ [r.reply v .DONE]).countP isTerminal = 1
        rw [List.countP_append, countP_updates]
        rfl
      | exc ups msg =>
        show (ups.map (fun u => r.reply u .UPDATE)
          ++ [r.reply (.str (utf8Bytes "Error: " ++ msg)) .ERROR]).countP isTerminal = 1
        rw [List.countP_append, countP_updates]
        rfl
  · intro h
    exact call_remote_none svc r h
  · intro f hf
    constructor
    · intro ups v hfr
      rw [call_remote_some svc r f hf, hfr]
    · intro ups msg hfr
      rw [call_remote_some svc r f hf, hfr]

/-- C3 witness: a service with a single method `f` (UTF-8 `[102]`) that
streams one update and returns: the call pushes exactly one terminal
response, the final DONE. -/
theorem C3_call_remote_one_terminal_witness :
    (Service.call_remote ⟨[([102], fun _ => .ret [.int 1] (.int 2))]⟩
        ⟨[], [], [102], []⟩).countP isTerminal = 1 ∧
    Service.call_remote ⟨[([102], fun _ => .ret [.int 1] (.int 2))]⟩ ⟨[], [], [102], []⟩
      = [Request.reply ⟨[], [], [102], []⟩ (.int 1) .UPDATE,
         Request.reply ⟨[], [], [102], []⟩ (.int 2) .DONE] :=
  ⟨(C3_call_remote_one_terminal ⟨[([102], fun _ => .ret [.int 1] (.int 2))]⟩
      ⟨[], [], [102], []⟩).1,
    ((C3_call_remote_one_terminal ⟨[([102], fun _ => .ret [.int 1] (.int 2))]⟩
      ⟨[], [], [102], []⟩).2.2 _ rfl).1 [.int 1] (.int 2) rfl⟩

/-- C7 (counterexample): the unknown-method ERROR content is not the bare
`Service does not support remote method foo` — the code wraps the name in
double quotes (`f'... "{request.method}"'`), so the content differs from
the claim's string at the quote characters. -/
theorem C7_counterexample :
    (Service.call_remote ⟨[]⟩ ⟨[], [], utf8Bytes "foo", []⟩).map
        (fun resp => resp.content)
      ≠ [.str (utf8Bytes "Service does not support remote method foo")] := by
  intro h
  have h' : [MValue.str (errNoMethod (utf8Bytes "foo"))]
      = [MValue.str (utf8Bytes "Service does not support remote method foo")] := h
  injection h' with h1 _
  injection h1 with h2
  exact absurd h2 (by decide)

/-- C7 (amended): when no `remote__` method matches, `call_remote` pushes
exactly the single ERROR response whose content is
`Service does not support remote method "<name>"` — the requested name
wrapped in double quotes — and invokes no method (the output is this fixed
response regardless of the table's entries). -/
theorem C7_unknown_method (svc : Service) (r : Request)
    (h : lookupMethod svc.methods r.method = none) :
    svc.call_remote r = [r.reply (.str (errNoMethod r.method)) .ERROR] ∧
    errNoMethod r.method
      = utf8Bytes "Service does not support remote method \"" ++ r.method
        ++ utf8Bytes "\"" :=
  ⟨call_remote_none svc r h, rfl⟩

/-- C7 witness: the amended statement at an empty service and method
`foo`. -/
theorem C7_unknown_method_witness :
    Service.call_remote ⟨[]⟩ ⟨[], [], utf8Bytes "foo", []⟩
      = [Request.reply ⟨[], [], utf8Bytes "foo", []⟩
          (.str (errNoMethod (utf8Bytes "foo"))) .ERROR] :=
  (C7_unknown_method ⟨[]⟩ ⟨[], [], utf8Bytes "foo", []⟩ rfl).1

/-- C5 (counterexample): the round trip fails on a map with an integer
key, a value inside the claimed domain (nil, booleans, integers, ...,
maps): `msgpack.dumps` encodes `{1: 2}` (bytes `81 01 02`) but
`msgpack.loads` — whose `strict_map_key` default accepts only strings and
byte strings as map keys — raises on it, so `Request.create` applied to
the frames of such a request raises instead of restoring the kwargs. -/
theorem C5_counterexample :
    Request.create [7] [1] [109] (msgDumps (.map [(.int 1, .int 2)])) = none ∧
    Request.create [7] [1] [109] (msgDumps (.map [(.int 1, .int 2)]))
      ≠ some { client_id := [7], request_id := [1], method := [109],
               kwargs := [(.int 1, .int 2)] } := by
  refine ⟨rfl, ?_⟩
  intro h
  exact Option.noConfusion
    (show (none : Option Request)
        = some { client_id := [7], request_id := [1], method := [109],
                 kwargs := [(.int 1, .int 2)] } from h)

/-- C5 (amended): envelope round-trip over the well-formed domain `wfV`,
which restricts map keys (at every nesting level) to strings and byte
strings as the unpacker's `strict_map_key` default demands.  For a request
whose kwargs map is well-formed, `Request.create` applied to the frames
that `Request.parts` produces (plus the client id) restores client_id,
request_id, method, and kwargs exactly; likewise `Response.create` applied
to the frames of `Response.parts` restores client_id, request_id, type,
and content. -/
theorem C5_envelope_roundtrip :
    (∀ r : Request, wfV (.map r.kwargs) = true →
      r.parts = [r.request_id, r.method, msgDumps (.map r.kwargs)] ∧
      Request.create r.client_id r.request_id r.method (msgDumps (.map r.kwargs))
        = some r) ∧
    (∀ resp : Response, wfV resp.content = true →
      resp.parts = [resp.client_id, resp.request_id,
        msgDumps (.int resp.type.value), msgDumps resp.content] ∧
      Response.create resp.client_id resp.request_id
        (msgDumps (.int resp.type.value)) (msgDumps resp.content) = some resp) := by
  constructor
  · intro r hwf
    refine ⟨rfl, ?_⟩
    unfold Request.create
    rw [msgLoads_msgDumps _ hwf]
    rfl
  · intro resp hwf
    obtain ⟨cid, rid, t, c⟩ := resp
    refine ⟨rfl, ?_⟩
    unfold Response.create
    rw [msgLoads_msgDumps _ (show wfV (.int (ResponseType.value t)) = true from by
      cases t <;> rfl)]
    rw [msgLoads_msgDumps _ hwf]
    cases t <;> rfl

/-- C5 witness: the round-trip at a concrete request (kwargs
`{"name": 42}`) and a concrete DONE response carrying a string. -/
theorem C5_envelope_roundtrip_witness :
    Request.create [7] [1] (utf8Bytes "hello")
        (msgDumps (.map [(.str (utf8Bytes "name"), .int 42)]))
      = some { client_id := [7], request_id := [1], method := utf8Bytes "hello",
               kwargs := [(.str (utf8Bytes "name"), .int 42)] } ∧
    Response.create [7] [1] (msgDumps (.int ResponseType.DONE.value))
        (msgDumps (.str (utf8Bytes "hi")))
      = some { client_id := [7], request_id := [1], type := .DONE,
               content := .str (utf8Bytes "hi") } :=
  ⟨(C5_envelope_roundtrip.1
      { client_id := [7], request_id := [1], method := utf8Bytes "hello",
        kwargs := [(.str (utf8Bytes "name"), .int 42)] } rfl).2,
    (C5_envelope_roundtrip.2
      { client_id := [7], request_id := [1], type := .DONE,
        content := .str (utf8Bytes "hi") } rfl).2⟩

/-- C6 (counterexample): the heartbeat's fourth frame is neither the empty
byte string nor `encode(nil)` — the code sends `msgpack.dumps(b'')`, the
bin8 encoding `c4 00` of the empty byte string. -/
theorem C6_counterexample :
    Response.heartbeat ≠ [[], heartbeatId, msgDumps (.int 4), []] ∧
    Response.heartbeat ≠ [[], heartbeatId, msgDumps (.int 4), msgDumps .nil] := by
  refine ⟨?_, ?_⟩ <;> decide

/-- C6 (amended): the heartbeat generator produces exactly
`[b"", b"heartbeat", encode(HEARTBEAT), encode(b"")]`: its third frame is
the compact-binary encoding `04` of the kind code 4, and its fourth frame
is the encoding `c4 00` of the empty byte string (not the empty byte
string itself). -/
theorem C6_heartbeat_frames :
    Response.heartbeat
      = [[], utf8Bytes "heartbeat", msgDumps (.int ResponseType.HEARTBEAT.value),
          msgDumps (.bin [])] ∧
    msgDumps (.int ResponseType.HEARTBEAT.value) = [0x04] ∧
    msgDumps (.bin []) = [0xc4, 0x00] :=
  ⟨rfl, rfl, rfl⟩

theorem createChecked_eq_create (client_id request_id method arg_data : List Nat)
    (hm : isUtf8 method = true) (hr : isUtf8 request_id = true) :
    Request.createChecked client_id request_id method arg_data
      = Request.create client_id request_id method arg_data := by
  unfold Request.createChecked Request.create
  cases msgLoads arg_data with
  | none => rfl
  | some args => simp [hm, hr]

end SzRpc
